import Mathlib

/-!
Verification of the chat-history compaction engine in `src/history_summary.rs`
(`Augment-BYOK-Proxy`): a shallow embedding of the exchange renderer, the
template substitution and the history compactor, together with theorems about
the specified properties.

Machine integers of the source (`i64` counts, numeric node ids) are modelled
as `Int`/`Nat`; none of the operations of this core can overflow them.
Rust strings are modelled as Lean `String`, with the string primitives used by
the source (`trim`, `trim_end_matches('\n')`, `is_empty`, `contains`,
`replace`, `push_str`, `join`) embedded as executable functions over the
underlying character lists.  Rust `char::is_whitespace` is modelled by
`Char.isWhitespace`; the two agree on all ASCII input.
-/

namespace ABP

/-! ## String primitives used by the source -/

/-- Rust `str::is_empty`. -/
def strIsEmpty (s : String) : Bool :=
  s.data.isEmpty

/-- Rust `str::trim`: drop leading and trailing whitespace characters. -/
def strTrim (s : String) : String :=
  ⟨((s.data.dropWhile Char.isWhitespace).reverse.dropWhile Char.isWhitespace).reverse⟩

/-- Rust `s.trim().is_empty()` — "blank": empty or whitespace-only. -/
def isBlank (s : String) : Bool :=
  strIsEmpty (strTrim s)

/-- Rust `s.trim_end_matches('\n')`: drop every trailing newline character. -/
def dropNewlinesEnd (s : String) : String :=
  ⟨(s.data.reverse.dropWhile (fun c => c == '\n')).reverse⟩

/-- Concatenation of a list of strings, the denotation of the source's
sequence of `push_str` calls over a loop. -/
def strConcat : List String → String
  | [] => ""
  | s :: rest => s ++ strConcat rest

/-- Rust `Vec<String>::join("\n")`: concatenate with a single newline between
consecutive elements. -/
def joinNewline : List String → String
  | [] => ""
  | [s] => s
  | s :: rest => s ++ "\n" ++ joinNewline rest

/-- Substring occurrence test over character lists (Rust `str::contains` with
a string pattern). -/
def containsFrom (pat : List Char) : List Char → Bool
  | [] => pat.isEmpty
  | c :: rest => pat.isPrefixOf (c :: rest) || containsFrom pat rest

/-- Rust `s.contains(pat)`. -/
def containsSubstr (s pat : String) : Bool :=
  containsFrom pat.data s.data

/-- `pat` occurs as a contiguous substring of `s`. -/
def SubstrP (pat s : String) : Prop :=
  ∃ a b : List Char, s.data = a ++ pat.data ++ b

/-- Leftmost, non-overlapping, single-pass replacement over character lists
(the scan of Rust `str::replace`), with an explicit fuel argument to keep the
recursion structural: every step consumes at least one character, so with
`fuel` at least the length of the scanned list the exhaustion branch is
unreachable.  The source only ever calls it with the non-empty literal
placeholder tokens, so the `pat.isEmpty` guard (which makes the empty-pattern
case a no-op) is never exercised. -/
def replaceFromFuel (pat rep : List Char) : Nat → List Char → List Char
  | _, [] => []
  | 0, s => s
  | fuel + 1, c :: rest =>
    if pat.isPrefixOf (c :: rest) && !pat.isEmpty then
      rep ++ replaceFromFuel pat rep fuel (rest.drop (pat.length - 1))
    else
      c :: replaceFromFuel pat rep fuel rest

/-- Rust `s.replace(pat, rep)` for a non-empty string pattern. -/
def strReplace (s pat rep : String) : String :=
  ⟨replaceFromFuel pat.data rep.data s.data.length s.data⟩

/-! ## Node type tags and the data model

The node taxonomy and the `NodeIn`/`AugmentChatHistory` records live in the
protocol module of the repository, which is not part of this core's source;
they are modelled from the spec (§3, §6).  The exact numeric tag values are
owned by the protocol layer; all that the core relies on is that the seven
consumed tags are pairwise distinct, request-node tags among themselves and
response-node tags among themselves. -/

/-- Modelled from the spec: request-node type tag for `Text` nodes. -/
def REQUEST_NODE_TEXT : Nat := 0

/-- Modelled from the spec: request-node type tag for `ToolResult` nodes. -/
def REQUEST_NODE_TOOL_RESULT : Nat := 1

/-- Modelled from the spec: request-node type tag for `HistorySummary` nodes. -/
def REQUEST_NODE_HISTORY_SUMMARY : Nat := 2

/-- Modelled from the spec: response-node type tag for `MainTextFinished`. -/
def RESPONSE_NODE_MAIN_TEXT_FINISHED : Nat := 3

/-- Modelled from the spec: response-node type tag for `RawResponse`. -/
def RESPONSE_NODE_RAW_RESPONSE : Nat := 4

/-- Modelled from the spec: response-node type tag for `Thinking`. -/
def RESPONSE_NODE_THINKING : Nat := 5

/-- Modelled from the spec: response-node type tag for `ToolUse`. -/
def RESPONSE_NODE_TOOL_USE : Nat := 6

/-- Modelled from the spec: the `Text` node payload. -/
structure TextNode where
  content : String
deriving Repr, DecidableEq

/-- Modelled from the spec: the `ToolResult` node payload
`{ tool_use_id, content, content_nodes, is_error }`.  The `content_nodes`
are opaque pass-through data never interpreted by this core, modelled as
opaque strings. -/
structure ToolResultNode where
  tool_use_id : String
  content : String
  content_nodes : List String
  is_error : Bool
deriving Repr, DecidableEq

/-- Modelled from the spec: the `ToolUse` node payload. -/
structure ToolUseNode where
  tool_name : String
  tool_use_id : String
  input_json : String
deriving Repr, DecidableEq

/-- Modelled from the spec: the `Thinking` node payload. -/
structure ThinkingNode where
  summary : String
deriving Repr, DecidableEq

/-- One fully preserved tail exchange of the summary payload
(`HistoryEndExchange` in the source), generic in the node type to break the
payload/node recursion of the untyped JSON boundary. -/
structure HistoryEndExchangeG (N : Type) where
  request_message : String
  response_text : String
  request_nodes : List N
  response_nodes : List N
deriving Repr, DecidableEq

/-- The decoded summary payload (`HistorySummaryNode` in the source),
generic in the node type. -/
structure HistorySummaryNodeG (N : Type) where
  summary_text : String
  summarization_request_id : String
  history_beginning_dropped_num_exchanges : Int
  history_middle_abridged_text : String
  history_end : List (HistoryEndExchangeG N)
  message_template : String
deriving Repr, DecidableEq

/-- The raw JSON value stored on a `HistorySummary` node, abstracted to the
only distinction the core observes through `serde_json::from_value`: a value
that decodes to a payload, or one that does not (`Value::Null`, which the
compactor substitutes for a missing payload, never decodes, since the
payload is a struct). -/
inductive HistorySummaryValueG (N : Type) where
  | null
  | undecodable
  | decoded (p : HistorySummaryNodeG N)
deriving Repr, DecidableEq

/-- Modelled from the spec: one decoded conversation node (`NodeIn` in the
protocol module).  The payload fields of variants this core never interprets
(image, file, ide-state, edit-events, checkpoint-ref, personality) are
collapsed into the single opaque pass-through field `pass_through`. -/
inductive NodeIn where
  | mk
      (id : Nat)
      (node_type : Nat)
      (content : String)
      (text_node : Option TextNode)
      (tool_result_node : Option ToolResultNode)
      (tool_use : Option ToolUseNode)
      (thinking : Option ThinkingNode)
      (history_summary_node : Option (HistorySummaryValueG NodeIn))
      (pass_through : Option String)

/-- Stable node identifier. -/
def NodeIn.id : NodeIn → Nat
  | mk i _ _ _ _ _ _ _ _ => i

/-- Node type tag. -/
def NodeIn.node_type : NodeIn → Nat
  | mk _ t _ _ _ _ _ _ _ => t

/-- Flat streaming content (used by `MainTextFinished` / `RawResponse`). -/
def NodeIn.content : NodeIn → String
  | mk _ _ c _ _ _ _ _ _ => c

/-- `Text` payload. -/
def NodeIn.text_node : NodeIn → Option TextNode
  | mk _ _ _ tn _ _ _ _ _ => tn

/-- `ToolResult` payload. -/
def NodeIn.tool_result_node : NodeIn → Option ToolResultNode
  | mk _ _ _ _ tr _ _ _ _ => tr

/-- `ToolUse` payload. -/
def NodeIn.tool_use : NodeIn → Option ToolUseNode
  | mk _ _ _ _ _ tu _ _ _ => tu

/-- `Thinking` payload. -/
def NodeIn.thinking : NodeIn → Option ThinkingNode
  | mk _ _ _ _ _ _ th _ _ => th

/-- Raw `HistorySummary` payload value. -/
def NodeIn.history_summary_node : NodeIn → Option (HistorySummaryValueG NodeIn)
  | mk _ _ _ _ _ _ _ hs _ => hs

/-- Opaque pass-through payloads. -/
def NodeIn.pass_through : NodeIn → Option String
  | mk _ _ _ _ _ _ _ _ pt => pt

/-- Tail exchanges over concrete nodes. -/
abbrev HistoryEndExchange := HistoryEndExchangeG NodeIn

/-- Decoded summary payload over concrete nodes. -/
abbrev HistorySummaryNode := HistorySummaryNodeG NodeIn

/-- Raw summary payload value over concrete nodes. -/
abbrev HistorySummaryValue := HistorySummaryValueG NodeIn

/-- The boundary decode step `serde_json::from_value::<HistorySummaryNode>`. -/
def decodeHistorySummary : HistorySummaryValue → Option HistorySummaryNode
  | .decoded p => some p
  | _ => none

/-- Modelled from the spec: one history entry (`AugmentChatHistory` in the
protocol module), with its three parallel request-node lists. -/
structure AugmentChatHistory where
  response_text : String
  request_message : String
  request_id : String
  request_nodes : List NodeIn
  structured_request_nodes : List NodeIn
  nodes : List NodeIn
  response_nodes : List NodeIn
  structured_output_nodes : List NodeIn

/-- Modelled from the spec: the protocol helper classifying a node as a
compaction marker — a node whose type tag is `HistorySummary`. -/
def NodeIn.is_history_summary_node (n : NodeIn) : Bool :=
  n.node_type == REQUEST_NODE_HISTORY_SUMMARY

/-- Modelled from the spec: the protocol helper testing whether a node list
contains a node of type `HistorySummary`. -/
def has_history_summary_node (nodes : List NodeIn) : Bool :=
  nodes.any NodeIn.is_history_summary_node

/-! ## Exchange renderer (`build_exchange_render_ctx`, `render_exchange_full`) -/

/-- Derived per-render view of one tool result. -/
structure ToolResultCtx where
  id : String
  content : String
  is_error : Bool
deriving Repr, DecidableEq

/-- Derived per-render view of one tool use. -/
structure ToolUseCtx where
  name : String
  id : String
  input : String
deriving Repr, DecidableEq

/-- Derived, ephemeral normalized view of one exchange
(`ExchangeRenderCtx` in the source). -/
structure ExchangeRenderCtx where
  user_message : String
  tool_results : List ToolResultCtx
  thinking : String
  response_text : String
  tool_uses : List ToolUseCtx
  has_response : Bool
deriving Repr, DecidableEq

/-- One step of the `normalize_joined_lines` loop: drop trailing newlines
from the fragment, skip it if it became empty, and otherwise append it to the
accumulator, preceded by a newline when the accumulator is non-empty. -/
def normStep (out line : String) : String :=
  if strIsEmpty (dropNewlinesEnd line) then out
  else if strIsEmpty out then dropNewlinesEnd line
  else out ++ "\n" ++ dropNewlinesEnd line

/-- `normalize_joined_lines`: fold the fragments left to right with
`normStep`, starting from the empty accumulator. -/
def normalize_joined_lines (lines : List String) : String :=
  lines.foldl normStep ""

/-- `extract_user_message_from_request_nodes`. -/
def extract_user_message_from_request_nodes
    (nodes : List NodeIn) (fallback_request_message : String) : String :=
  let joined := normalize_joined_lines (nodes.filterMap (fun n =>
    if n.node_type == REQUEST_NODE_TEXT then n.text_node.map TextNode.content
    else none))
  if !isBlank joined then joined else fallback_request_message

/-- One step of the `finished_text` / `raw` accumulation loop over the
response nodes: a `MainTextFinished` node with non-blank content overwrites
the finished text; a `RawResponse` node with non-blank content is appended to
the raw accumulator; everything else is skipped. -/
def finRawStep (acc : Option String × String) (n : NodeIn) : Option String × String :=
  if n.node_type == RESPONSE_NODE_MAIN_TEXT_FINISHED && !isBlank n.content then
    (some n.content, acc.2)
  else if n.node_type == RESPONSE_NODE_RAW_RESPONSE && !isBlank n.content then
    (acc.1, acc.2 ++ n.content)
  else acc

/-- The `finished_text` / `raw` accumulation loop over the response nodes. -/
def finishedAndRaw (nodes : List NodeIn) : Option String × String :=
  nodes.foldl finRawStep (none, "")

/-- `build_exchange_render_ctx`. -/
def build_exchange_render_ctx (ex : HistoryEndExchange) : ExchangeRenderCtx :=
  let user_message :=
    extract_user_message_from_request_nodes ex.request_nodes ex.request_message
  let tool_results : List ToolResultCtx :=
    (ex.request_nodes.filter (fun n => n.node_type == REQUEST_NODE_TOOL_RESULT)).filterMap
      (fun n =>
        match n.tool_result_node with
        | none => none
        | some tr =>
          if isBlank tr.tool_use_id then none
          else some ⟨tr.tool_use_id, tr.content, tr.is_error⟩)
  let thinking :=
    normalize_joined_lines (ex.response_nodes.filterMap (fun n =>
      if n.node_type == RESPONSE_NODE_THINKING then
        match n.thinking with
        | some t => if isBlank t.summary then none else some t.summary
        | none => none
      else none))
  let fr := finishedAndRaw ex.response_nodes
  let response_text := strTrim (fr.1.getD fr.2)
  let response_text :=
    if strIsEmpty response_text && !isBlank ex.response_text then
      strTrim ex.response_text
    else response_text
  let tool_uses : List ToolUseCtx :=
    (ex.response_nodes.filter (fun n => n.node_type == RESPONSE_NODE_TOOL_USE)).filterMap
      (fun n =>
        match n.tool_use with
        | none => none
        | some tu =>
          if isBlank tu.tool_use_id || isBlank tu.tool_name then none
          else some ⟨tu.tool_name, tu.tool_use_id, tu.input_json⟩)
  let has_response :=
    !strIsEmpty thinking || !strIsEmpty response_text || !tool_uses.isEmpty
  { user_message, tool_results, thinking, response_text, tool_uses, has_response }

/-- The `<tool_result …>…</tool_result>` block emitted for one tool result. -/
def renderToolResultBlock (tr : ToolResultCtx) : String :=
  "    <tool_result tool_use_id=\"" ++ strTrim tr.id ++ "\" is_error=\""
    ++ (if tr.is_error then "true" else "false") ++ "\">\n"
    ++ (if isBlank tr.content then "" else dropNewlinesEnd tr.content ++ "\n")
    ++ "    </tool_result>\n"

/-- The `<tool_use …>…</tool_use>` block emitted for one tool use. -/
def renderToolUseBlock (tu : ToolUseCtx) : String :=
  "    <tool_use name=\"" ++ strTrim tu.name ++ "\" tool_use_id=\""
    ++ strTrim tu.id ++ "\">\n"
    ++ (if isBlank tu.input then "" else dropNewlinesEnd tu.input ++ "\n")
    ++ "    </tool_use>\n"

/-- The `<agent_response_or_tool_uses>` section of a rendered exchange. -/
def renderAgentSection (ctx : ExchangeRenderCtx) : String :=
  "  <agent_response_or_tool_uses>\n"
    ++ (if isBlank ctx.thinking then ""
        else "    <thinking>\n" ++ dropNewlinesEnd ctx.thinking ++ "\n" ++ "    </thinking>\n")
    ++ (if isBlank ctx.response_text then "" else dropNewlinesEnd ctx.response_text ++ "\n")
    ++ strConcat (ctx.tool_uses.map renderToolUseBlock)
    ++ "  </agent_response_or_tool_uses>\n"

/-- `render_exchange_full`. -/
def render_exchange_full (ctx : ExchangeRenderCtx) : String :=
  "<exchange>\n  <user_request_or_tool_results>\n"
    ++ (if isBlank ctx.user_message then "" else dropNewlinesEnd ctx.user_message ++ "\n")
    ++ strConcat (ctx.tool_results.map renderToolResultBlock)
    ++ "  </user_request_or_tool_results>\n"
    ++ (if ctx.has_response then renderAgentSection ctx else "")
    ++ "</exchange>"

/-! ## Template substitution and `render_history_summary_node_value` -/

/-- `replace_placeholders`: fold each token/value pair over the template in
order, replacing the token when it occurs. -/
def replace_placeholders (template : String) (repl : List (String × String)) : String :=
  repl.foldl
    (fun t kv => if containsSubstr t kv.1 then strReplace t kv.1 kv.2 else t)
    template

/-- The tail-exchange list actually rendered: the payload's stored exchanges,
plus — when `extra_tool_results` is non-empty — one synthetic final exchange
with empty message/response fields carrying the extra tool results as its
request nodes. -/
def historyEndWithExtra (node : HistorySummaryNode) (extra : List NodeIn) :
    List HistoryEndExchange :=
  if extra.isEmpty then node.history_end
  else node.history_end ++
    [{ request_message := "", response_text := "", request_nodes := extra, response_nodes := [] }]

/-- The value substituted for the `{end_part_full}` token: every tail exchange
rendered in full, newline-joined. -/
def endPartFullOf (node : HistorySummaryNode) (extra : List NodeIn) : String :=
  joinNewline ((historyEndWithExtra node extra).map
    (fun ex => render_exchange_full (build_exchange_render_ctx ex)))

/-- `render_history_summary_node_value`. -/
def render_history_summary_node_value
    (v : HistorySummaryValue) (extra_tool_results : List NodeIn) : Option String :=
  match decodeHistorySummary v with
  | none => none
  | some node =>
    if isBlank node.message_template then none
    else
      some (replace_placeholders node.message_template
        [("{summary}", node.summary_text),
         ("{summarization_request_id}", node.summarization_request_id),
         ("{beginning_part_dropped_num_exchanges}",
           toString node.history_beginning_dropped_num_exchanges),
         ("{middle_part_abridged}", node.history_middle_abridged_text),
         ("{end_part_full}", endPartFullOf node extra_tool_results),
         ("{abridged_history}", node.history_middle_abridged_text)])

/-! ## History compactor (`compact_chat_history`) -/

/-- `chat_history_item_has_summary`. -/
def chat_history_item_has_summary (item : AugmentChatHistory) : Bool :=
  has_history_summary_node item.request_nodes
    || has_history_summary_node item.structured_request_nodes
    || has_history_summary_node item.nodes

/-- The tool-result nodes collected from the merged list: every node of type
`ToolResult` carrying a decoded payload. -/
def collectToolResults (req_nodes : List NodeIn) : List NodeIn :=
  req_nodes.filter
    (fun n => n.node_type == REQUEST_NODE_TOOL_RESULT && n.tool_result_node.isSome)

/-- The replacement `Text` node built on render success: the marker's id, the
rendered string as text content, every other payload empty. -/
def summaryTextNode (id : Nat) (text : String) : NodeIn :=
  .mk id REQUEST_NODE_TEXT "" (some ⟨text⟩) none none none none none

/-- The merged nodes surviving a successful rewrite: everything that is
neither a `HistorySummary` nor a `ToolResult` node. -/
def otherNodesOf (req_nodes : List NodeIn) : List NodeIn :=
  req_nodes.filter
    (fun n => !(n.node_type == REQUEST_NODE_HISTORY_SUMMARY)
      && !(n.node_type == REQUEST_NODE_TOOL_RESULT))

/-- The rewrite `compact_chat_history` performs on the surviving first entry:
merge the three node lists, locate the first summary marker, render it, and
either replace it (dropping summary/tool-result nodes) or, when the marker is
absent or rendering fails, store the merged list back unchanged.  The merge
empties `structured_request_nodes` and `nodes` (Rust `Vec::append` moves the
elements out). -/
def compact_first (first : AugmentChatHistory) : AugmentChatHistory :=
  let req_nodes := first.request_nodes ++ first.structured_request_nodes ++ first.nodes
  match req_nodes.find? NodeIn.is_history_summary_node with
  | none =>
    { first with request_nodes := req_nodes, structured_request_nodes := [], nodes := [] }
  | some snode =>
    let summary_value := snode.history_summary_node.getD .null
    match render_history_summary_node_value summary_value (collectToolResults req_nodes) with
    | none =>
      { first with request_nodes := req_nodes, structured_request_nodes := [], nodes := [] }
    | some text =>
      { first with
        request_nodes := summaryTextNode snode.id text :: otherNodesOf req_nodes,
        structured_request_nodes := [],
        nodes := [] }

/-- Rust `Iterator::rposition`: the index (from the front) of the last element
satisfying the predicate. -/
def rposition {α : Type} (p : α → Bool) : List α → Option Nat
  | [] => none
  | a :: as =>
    match rposition p as with
    | some i => some (i + 1)
    | none => if p a then some 0 else none

/-- `compact_chat_history`, as a pure function on the history list. -/
def compact_chat_history (ch : List AugmentChatHistory) : List AugmentChatHistory :=
  match rposition chat_history_item_has_summary ch with
  | none => ch
  | some start =>
    match ch.drop start with
    | [] => []
    | first :: rest => compact_first first :: rest

/-! ## Basic string lemmas -/

theorem str_data_inj {s t : String} (h : s.data = t.data) : s = t := by
  cases s with
  | mk d =>
    cases t with
    | mk e =>
      have hde : d = e := h
      rw [hde]

theorem strIsEmpty_iff {s : String} : strIsEmpty s = true ↔ s = "" := by
  constructor
  · intro h
    apply str_data_inj
    exact List.isEmpty_iff.mp h
  · intro h
    rw [h]
    rfl

theorem str_append_data (s t : String) : (s ++ t).data = s.data ++ t.data := by
  cases s
  cases t
  rfl

theorem str_append_assoc (a b c : String) : a ++ b ++ c = a ++ (b ++ c) := by
  apply str_data_inj
  simp [str_append_data, List.append_assoc]

theorem str_append_nil (s : String) : s ++ "" = s := by
  apply str_data_inj
  simp [str_append_data]

theorem str_nil_append (s : String) : "" ++ s = s := by
  apply str_data_inj
  simp [str_append_data]

/-! ## Substring lemmas -/

theorem SubstrP.refl (s : String) : SubstrP s s :=
  ⟨[], [], by simp⟩

theorem SubstrP.append_left {p s : String} (t : String) (h : SubstrP p s) :
    SubstrP p (t ++ s) := by
  obtain ⟨a, b, hab⟩ := h
  exact ⟨t.data ++ a, b, by simp [str_append_data, hab]⟩

theorem SubstrP.append_right {p s : String} (t : String) (h : SubstrP p s) :
    SubstrP p (s ++ t) := by
  obtain ⟨a, b, hab⟩ := h
  exact ⟨a, b ++ t.data, by simp [str_append_data, hab]⟩

theorem SubstrP.trans {p q s : String} (h₁ : SubstrP p q) (h₂ : SubstrP q s) :
    SubstrP p s := by
  obtain ⟨a, b, hab⟩ := h₁
  obtain ⟨c, d, hcd⟩ := h₂
  exact ⟨c ++ a, b ++ d, by simp [hcd, hab, List.append_assoc]⟩

theorem SubstrP.of_prefix {p s t : String} (h : s = p ++ t) : SubstrP p s :=
  ⟨[], t.data, by simp [h, str_append_data]⟩

theorem containsFrom_iff (pat : List Char) (s : List Char) :
    containsFrom pat s = true ↔ ∃ a b, s = a ++ pat ++ b := by
  induction s with
  | nil =>
    simp only [containsFrom, List.isEmpty_iff]
    constructor
    · intro h
      exact ⟨[], [], by simp [h]⟩
    · rintro ⟨a, b, hab⟩
      rcases List.append_eq_nil.mp (List.append_eq_nil.mp hab.symm).1 with ⟨-, h2⟩
      exact h2
  | cons c rest ih =>
    simp only [containsFrom, Bool.or_eq_true, List.isPrefixOf_iff_prefix, ih]
    constructor
    · rintro (hpre | ⟨a, b, hab⟩)
      · obtain ⟨t, ht⟩ := hpre
        exact ⟨[], t, by simp [← ht]⟩
      · exact ⟨c :: a, b, by simp [hab]⟩
    · rintro ⟨a, b, hab⟩
      cases a with
      | nil =>
        left
        exact ⟨b, by simpa using hab.symm⟩
      | cons x a' =>
        right
        rw [List.cons_append, List.cons_append] at hab
        injection hab with h1 h2
        exact ⟨a', b, h2⟩

theorem containsSubstr_iff {s pat : String} :
    containsSubstr s pat = true ↔ SubstrP pat s :=
  containsFrom_iff pat.data s.data

/-! ## Concatenation and joining lemmas -/

theorem strConcat_append (a b : List String) :
    strConcat (a ++ b) = strConcat a ++ strConcat b := by
  induction a with
  | nil => simp [strConcat, str_nil_append]
  | cons x xs ih => simp [strConcat, ih, str_append_assoc]

theorem substrP_strConcat {x : String} {l : List String} (h : x ∈ l) :
    SubstrP x (strConcat l) := by
  obtain ⟨s, t, hst⟩ := List.append_of_mem h
  rw [hst, strConcat_append]
  show SubstrP x (strConcat s ++ (x ++ strConcat t))
  exact ((SubstrP.refl x).append_right (strConcat t)).append_left (strConcat s)

theorem joinNewline_cons_cons (s t : String) (r : List String) :
    joinNewline (s :: t :: r) = s ++ "\n" ++ joinNewline (t :: r) := rfl

theorem substrP_joinNewline {x : String} {l : List String} (h : x ∈ l) :
    SubstrP x (joinNewline l) := by
  induction l with
  | nil => cases h
  | cons y r ih =>
    cases r with
    | nil =>
      rcases List.mem_singleton.mp h with rfl
      exact SubstrP.refl x
    | cons z r' =>
      rw [joinNewline_cons_cons]
      rcases List.mem_cons.mp h with rfl | hmem
      · exact ((SubstrP.refl x).append_right "\n").append_right (joinNewline (z :: r'))
      · exact (ih hmem).append_left (y ++ "\n")

/-! ## `rposition` lemmas -/

theorem rposition_none_iff {α : Type} (p : α → Bool) (l : List α) :
    rposition p l = none ↔ ∀ x ∈ l, p x = false := by
  induction l with
  | nil => simp [rposition]
  | cons a as ih =>
    simp only [rposition]
    constructor
    · intro h
      cases has : rposition p as with
      | some i => rw [has] at h; simp at h
      | none =>
        rw [has] at h
        intro x hx
        rcases hpa : p a with _ | _
        · rcases List.mem_cons.mp hx with rfl | hmem
          · exact hpa
          · exact ih.mp has x hmem
        · rw [hpa] at h; simp at h
    · intro hall
      have hnone : rposition p as = none :=
        ih.mpr (fun x hx => hall x (List.mem_cons_of_mem a hx))
      rw [hnone, hall a (List.mem_cons_self a as)]
      simp

theorem rposition_some_spec {α : Type} (p : α → Bool) (l : List α) (k : Nat)
    (h : rposition p l = some k) :
    ∃ x, l[k]? = some x ∧ p x = true ∧
      ∀ j y, k < j → l[j]? = some y → p y = false := by
  induction l generalizing k with
  | nil => simp [rposition] at h
  | cons a as ih =>
    simp only [rposition] at h
    cases has : rposition p as with
    | some i =>
      rw [has] at h
      injection h with hk
      obtain ⟨x, hx, hpx, hafter⟩ := ih i has
      refine ⟨x, ?_, hpx, ?_⟩
      · rw [← hk]; simpa using hx
      · intro j y hj hy
        rw [← hk] at hj
        cases j with
        | zero => omega
        | succ j' =>
          apply hafter j' y (by omega)
          simpa using hy
    | none =>
      rw [has] at h
      rcases hpa : p a with _ | _
      · rw [hpa] at h; simp at h
      · rw [hpa] at h
        injection h with hk
        refine ⟨a, by rw [← hk]; simp, hpa, ?_⟩
        intro j y hj hy
        rw [← hk] at hj
        cases j with
        | zero => omega
        | succ j' =>
          have hmem : y ∈ as := List.getElem?_mem (by simpa using hy)
          exact (rposition_none_iff p as).mp has y hmem

theorem rposition_eq_some {α : Type} (p : α → Bool) (l : List α) (k : Nat) (x : α)
    (hx : l[k]? = some x) (hpx : p x = true)
    (hafter : ∀ j y, k < j → l[j]? = some y → p y = false) :
    rposition p l = some k := by
  induction l generalizing k with
  | nil => simp at hx
  | cons a as ih =>
    simp only [rposition]
    cases k with
    | zero =>
      have hax : a = x := by simpa using hx
      have hnone : rposition p as = none := by
        rw [rposition_none_iff]
        intro y hy
        obtain ⟨j, hj⟩ := List.getElem_of_mem hy
        exact hafter (j + 1) y (by omega) (by simp [List.getElem?_eq_getElem, hj.1, hj.2])
      rw [hnone]
      simp [hax, hpx]
    | succ k' =>
      have hsome : rposition p as = some k' := by
        apply ih k' (by simpa using hx)
        intro j y hj hy
        exact hafter (j + 1) y (by omega) (by simpa using hy)
      rw [hsome]

theorem rposition_some_lt {α : Type} (p : α → Bool) (l : List α) (k : Nat)
    (h : rposition p l = some k) : k < l.length := by
  obtain ⟨x, hx, -, -⟩ := rposition_some_spec p l k h
  exact (List.getElem?_eq_some.mp hx).1

/-! ## Unfolding lemmas for the compactor -/

theorem compact_of_no_summary (ch : List AugmentChatHistory)
    (h : rposition chat_history_item_has_summary ch = none) :
    compact_chat_history ch = ch := by
  simp [compact_chat_history, h]

theorem compact_of_summary (ch : List AugmentChatHistory) (k : Nat)
    (first : AugmentChatHistory) (rest : List AugmentChatHistory)
    (h : rposition chat_history_item_has_summary ch = some k)
    (hdrop : ch.drop k = first :: rest) :
    compact_chat_history ch = compact_first first :: rest := by
  simp [compact_chat_history, h, hdrop]

theorem compact_first_no_marker (first : AugmentChatHistory)
    (h : (first.request_nodes ++ first.structured_request_nodes ++ first.nodes).find?
      NodeIn.is_history_summary_node = none) :
    compact_first first =
      { first with
          request_nodes := first.request_nodes ++ first.structured_request_nodes ++ first.nodes,
          structured_request_nodes := [], nodes := [] } := by
  simp only [compact_first, h]

theorem compact_first_render_fails (first : AugmentChatHistory) (snode : NodeIn)
    (hfind : (first.request_nodes ++ first.structured_request_nodes ++ first.nodes).find?
      NodeIn.is_history_summary_node = some snode)
    (hrender : render_history_summary_node_value (snode.history_summary_node.getD .null)
      (collectToolResults
        (first.request_nodes ++ first.structured_request_nodes ++ first.nodes)) = none) :
    compact_first first =
      { first with
          request_nodes := first.request_nodes ++ first.structured_request_nodes ++ first.nodes,
          structured_request_nodes := [], nodes := [] } := by
  simp only [compact_first, hfind, hrender]

theorem compact_first_render_succeeds (first : AugmentChatHistory) (snode : NodeIn)
    (text : String)
    (hfind : (first.request_nodes ++ first.structured_request_nodes ++ first.nodes).find?
      NodeIn.is_history_summary_node = some snode)
    (hrender : render_history_summary_node_value (snode.history_summary_node.getD .null)
      (collectToolResults
        (first.request_nodes ++ first.structured_request_nodes ++ first.nodes)) = some text) :
    compact_first first =
      { first with
          request_nodes := summaryTextNode snode.id text ::
            otherNodesOf (first.request_nodes ++ first.structured_request_nodes ++ first.nodes),
          structured_request_nodes := [], nodes := [] } := by
  simp only [compact_first, hfind, hrender]

/-- All branches of `compact_first` preserve every field of the entry other
than the three request-node lists, and empty the two legacy lists. -/
theorem compact_first_frame (first : AugmentChatHistory) :
    (compact_first first).response_text = first.response_text
    ∧ (compact_first first).request_message = first.request_message
    ∧ (compact_first first).request_id = first.request_id
    ∧ (compact_first first).response_nodes = first.response_nodes
    ∧ (compact_first first).structured_output_nodes = first.structured_output_nodes
    ∧ (compact_first first).structured_request_nodes = []
    ∧ (compact_first first).nodes = [] := by
  cases hfind : (first.request_nodes ++ first.structured_request_nodes ++ first.nodes).find?
      NodeIn.is_history_summary_node with
  | none =>
    rw [compact_first_no_marker first hfind]
    exact ⟨rfl, rfl, rfl, rfl, rfl, rfl, rfl⟩
  | some snode =>
    cases hrender : render_history_summary_node_value
        (snode.history_summary_node.getD .null)
        (collectToolResults
          (first.request_nodes ++ first.structured_request_nodes ++ first.nodes)) with
    | none =>
      rw [compact_first_render_fails first snode hfind hrender]
      exact ⟨rfl, rfl, rfl, rfl, rfl, rfl, rfl⟩
    | some text =>
      rw [compact_first_render_succeeds first snode text hfind hrender]
      exact ⟨rfl, rfl, rfl, rfl, rfl, rfl, rfl⟩

/-! ## Summary-marker detection lemmas -/

theorem has_summary_of_find {l : List NodeIn} {snode : NodeIn}
    (h : l.find? NodeIn.is_history_summary_node = some snode) :
    has_history_summary_node l = true :=
  List.any_eq_true.mpr ⟨snode, List.mem_of_find?_eq_some h, List.find?_some h⟩

theorem no_summary_in_rewritten (i : Nat) (text : String) (merged : List NodeIn) :
    has_history_summary_node (summaryTextNode i text :: otherNodesOf merged) = false := by
  rw [has_history_summary_node, List.any_eq_false]
  intro x hx
  rcases List.mem_cons.mp hx with rfl | hmem
  · simp [NodeIn.is_history_summary_node, summaryTextNode, NodeIn.node_type,
      REQUEST_NODE_TEXT, REQUEST_NODE_HISTORY_SUMMARY]
  · have hcond := (List.mem_filter.mp hmem).2
    simp only [Bool.and_eq_true, Bool.not_eq_true'] at hcond
    simp [NodeIn.is_history_summary_node, hcond.1]

theorem item_has_summary_of_single (first : AugmentChatHistory) (X : List NodeIn) :
    chat_history_item_has_summary
      { first with request_nodes := X, structured_request_nodes := [], nodes := [] }
      = has_history_summary_node X := by
  simp [chat_history_item_has_summary, has_history_summary_node]

/-- Rendering fails exactly on an undecodable payload or a blank template. -/
theorem render_none_of_bad (v : HistorySummaryValue)
    (hbad : decodeHistorySummary v = none
      ∨ ∃ p, decodeHistorySummary v = some p ∧ isBlank p.message_template = true) :
    ∀ extra, render_history_summary_node_value v extra = none := by
  intro extra
  rcases hbad with hnone | ⟨p, hp, hblank⟩
  · simp [render_history_summary_node_value, hnone]
  · simp [render_history_summary_node_value, hp, hblank]

/-! ## Concrete sample data for witnesses and counterexamples -/

/-- A well-formed tool-result payload. -/
def sampleToolResultNode : ToolResultNode :=
  ⟨"tool-1", "RESULT", [], false⟩

/-- A request node of type `ToolResult` carrying `sampleToolResultNode`. -/
def sampleTRNode : NodeIn :=
  .mk 2 REQUEST_NODE_TOOL_RESULT "" none (some sampleToolResultNode) none none none none

/-- A summary payload with a renderable template containing the
end-part token. -/
def samplePayloadOk : HistorySummaryNode :=
  { summary_text := "S"
    summarization_request_id := "req"
    history_beginning_dropped_num_exchanges := 1
    history_middle_abridged_text := ""
    history_end := []
    message_template := "<e>{end_part_full}</e>" }

/-- The same payload with a blank template (not renderable). -/
def samplePayloadBlank : HistorySummaryNode :=
  { samplePayloadOk with message_template := "" }

/-- A `HistorySummary` marker node carrying `samplePayloadOk`. -/
def sampleHsNodeOk : NodeIn :=
  .mk 1 REQUEST_NODE_HISTORY_SUMMARY "" none none none none
    (some (.decoded samplePayloadOk)) none

/-- A `HistorySummary` marker node carrying `samplePayloadBlank`. -/
def sampleHsNodeBlank : NodeIn :=
  .mk 1 REQUEST_NODE_HISTORY_SUMMARY "" none none none none
    (some (.decoded samplePayloadBlank)) none

/-- A plain earlier entry with no summary marker. -/
def sampleEntryPrev : AugmentChatHistory :=
  { response_text := "old", request_message := "old", request_id := "r0"
    request_nodes := [], structured_request_nodes := [], nodes := []
    response_nodes := [], structured_output_nodes := [] }

/-- A checkpoint entry whose marker renders successfully. -/
def sampleEntryOk : AugmentChatHistory :=
  { response_text := "", request_message := "", request_id := "r1"
    request_nodes := [sampleHsNodeOk, sampleTRNode]
    structured_request_nodes := [], nodes := []
    response_nodes := [], structured_output_nodes := [] }

/-- A checkpoint entry whose marker cannot render (blank template). -/
def sampleEntryBlank : AugmentChatHistory :=
  { sampleEntryOk with request_nodes := [sampleHsNodeBlank, sampleTRNode] }

/-- The text `samplePayloadOk` renders to when the collected tool results are
exactly `[sampleTRNode]`. -/
def sampleRenderedText : String :=
  "<e><exchange>\n  <user_request_or_tool_results>\n    <tool_result tool_use_id=\"tool-1\" is_error=\"false\">\nRESULT\n    </tool_result>\n  </user_request_or_tool_results>\n</exchange></e>"

/-! ## Claims -/

/-- Claim C1: for every history list whose checkpoint entry's summary payload
has a blank (empty or whitespace-only) `message_template`, or an undecodable
payload, `render_summary` returns nothing (for every extra tool-result list),
and `compact_chat_history` performs no destructive rewrite: the surviving
first entry's node list is exactly the concatenation of its three input node
lists, with no node added, removed, or retyped, and the entries after it
survive unchanged. -/
theorem claim_c1_unrenderable_no_destructive_rewrite
    (ch : List AugmentChatHistory) (k : Nat) (first : AugmentChatHistory)
    (rest : List AugmentChatHistory) (snode : NodeIn)
    (hk : rposition chat_history_item_has_summary ch = some k)
    (hdrop : ch.drop k = first :: rest)
    (hfind : (first.request_nodes ++ first.structured_request_nodes ++ first.nodes).find?
      NodeIn.is_history_summary_node = some snode)
    (hbad : decodeHistorySummary (snode.history_summary_node.getD .null) = none
      ∨ ∃ p, decodeHistorySummary (snode.history_summary_node.getD .null) = some p
          ∧ isBlank p.message_template = true) :
    (∀ extra, render_history_summary_node_value
        (snode.history_summary_node.getD .null) extra = none)
    ∧ compact_chat_history ch =
        { first with
            request_nodes :=
              first.request_nodes ++ first.structured_request_nodes ++ first.nodes,
            structured_request_nodes := [], nodes := [] } :: rest := by
  have hrnone := render_none_of_bad _ hbad
  refine ⟨hrnone, ?_⟩
  rw [compact_of_summary ch k first rest hk hdrop,
    compact_first_render_fails first snode hfind (hrnone _)]

/-- Witness for C1: a two-entry history whose checkpoint carries a
blank-template payload plus a tool-result node is truncated to the checkpoint
entry with its merged node list stored back unmodified. -/
theorem claim_c1_witness :
    (∀ extra, render_history_summary_node_value
        (sampleHsNodeBlank.history_summary_node.getD .null) extra = none)
    ∧ compact_chat_history [sampleEntryPrev, sampleEntryBlank] =
        [{ sampleEntryBlank with
            request_nodes := sampleEntryBlank.request_nodes
              ++ sampleEntryBlank.structured_request_nodes ++ sampleEntryBlank.nodes,
            structured_request_nodes := [], nodes := [] }] :=
  claim_c1_unrenderable_no_destructive_rewrite
    [sampleEntryPrev, sampleEntryBlank] 1 sampleEntryBlank [] sampleHsNodeBlank
    (by rfl) (by rfl) (by rfl)
    (Or.inr ⟨samplePayloadBlank, rfl, rfl⟩)

/-- Claim C2: when a checkpoint is found and rendering succeeds, the surviving
first entry's primary node list is exactly one new `Text`-type node, placed
first, reusing the marker node's original id, whose text content is the
rendered string, followed by every other merged node except those of type
`HistorySummary` or `ToolResult` in their original merged order; the other two
legacy node lists are left empty. -/
theorem claim_c2_success_rewrite
    (ch : List AugmentChatHistory) (k : Nat) (first : AugmentChatHistory)
    (rest : List AugmentChatHistory) (snode : NodeIn) (text : String)
    (hk : rposition chat_history_item_has_summary ch = some k)
    (hdrop : ch.drop k = first :: rest)
    (hfind : (first.request_nodes ++ first.structured_request_nodes ++ first.nodes).find?
      NodeIn.is_history_summary_node = some snode)
    (hrender : render_history_summary_node_value (snode.history_summary_node.getD .null)
      (collectToolResults
        (first.request_nodes ++ first.structured_request_nodes ++ first.nodes))
      = some text) :
    compact_chat_history ch =
      { first with
          request_nodes :=
            NodeIn.mk snode.id REQUEST_NODE_TEXT "" (some ⟨text⟩) none none none none none ::
              (first.request_nodes ++ first.structured_request_nodes ++ first.nodes).filter
                (fun n => !(n.node_type == REQUEST_NODE_HISTORY_SUMMARY)
                  && !(n.node_type == REQUEST_NODE_TOOL_RESULT)),
          structured_request_nodes := [], nodes := [] } :: rest := by
  rw [compact_of_summary ch k first rest hk hdrop,
    compact_first_render_succeeds first snode text hfind hrender]
  rfl

/-- Witness for C2: the two-entry history with a renderable checkpoint is
rewritten to a single entry holding one `Text` node (the marker's id `1`,
content the rendered text) and nothing else, since the only other merged node
was a `ToolResult`. -/
theorem claim_c2_witness :
    compact_chat_history [sampleEntryPrev, sampleEntryOk] =
      [{ sampleEntryOk with
          request_nodes :=
            NodeIn.mk sampleHsNodeOk.id REQUEST_NODE_TEXT ""
              (some ⟨sampleRenderedText⟩) none none none none none ::
              (sampleEntryOk.request_nodes ++ sampleEntryOk.structured_request_nodes
                ++ sampleEntryOk.nodes).filter
                (fun n => !(n.node_type == REQUEST_NODE_HISTORY_SUMMARY)
                  && !(n.node_type == REQUEST_NODE_TOOL_RESULT)),
          structured_request_nodes := [], nodes := [] }] :=
  claim_c2_success_rewrite
    [sampleEntryPrev, sampleEntryOk] 1 sampleEntryOk [] sampleHsNodeOk sampleRenderedText
    (by rfl) (by rfl) (by rfl) (by rfl)

/-- Claim C3: if no entry of the history list has a `HistorySummary` node in
any of its three node lists, `compact_chat_history` is a no-op; otherwise,
letting `k` be the index of the last such entry, the compacted list has length
`N - k`, its first entry is the compacted former entry `k`, and every entry
after the first survives unchanged at its shifted position. -/
theorem claim_c3_checkpoint_truncation (ch : List AugmentChatHistory) :
    ((∀ e ∈ ch, chat_history_item_has_summary e = false) →
      compact_chat_history ch = ch)
    ∧ (∀ k e, ch[k]? = some e → chat_history_item_has_summary e = true →
        (∀ j y, k < j → ch[j]? = some y → chat_history_item_has_summary y = false) →
        (compact_chat_history ch).length = ch.length - k
        ∧ (compact_chat_history ch)[0]? = some (compact_first e)
        ∧ ∀ i, 1 ≤ i → (compact_chat_history ch)[i]? = ch[k + i]?) := by
  constructor
  · intro hall
    exact compact_of_no_summary ch ((rposition_none_iff _ ch).mpr hall)
  · intro k e hke hpe hafter
    have hrk : rposition chat_history_item_has_summary ch = some k :=
      rposition_eq_some _ ch k e hke hpe hafter
    obtain ⟨hklen, hgetk⟩ := List.getElem?_eq_some.mp hke
    have hdrop : ch.drop k = e :: ch.drop (k + 1) := by
      rw [List.drop_eq_getElem_cons hklen, hgetk]
    have hcomp := compact_of_summary ch k e (ch.drop (k + 1)) hrk hdrop
    rw [hcomp]
    refine ⟨?_, by simp, ?_⟩
    · simp only [List.length_cons, List.length_drop]
      omega
    · intro i hi
      cases i with
      | zero => omega
      | succ i' =>
        rw [List.getElem?_cons_succ, List.getElem?_drop]
        congr 1
        omega

/-- Witness for C3: in the two-entry history with the checkpoint at index 1,
compaction yields a one-entry list headed by the compacted checkpoint, and the
position after the head matches the source list shifted by one. -/
theorem claim_c3_witness :
    (compact_chat_history [sampleEntryPrev, sampleEntryBlank]).length = 1
    ∧ (compact_chat_history [sampleEntryPrev, sampleEntryBlank])[0]?
        = some (compact_first sampleEntryBlank)
    ∧ (compact_chat_history [sampleEntryPrev, sampleEntryBlank])[1]?
        = [sampleEntryPrev, sampleEntryBlank][2]? := by
  have h := (claim_c3_checkpoint_truncation [sampleEntryPrev, sampleEntryBlank]).2
    1 sampleEntryBlank (by rfl) (by rfl)
    (by
      intro j y hj hy
      rcases j with _ | _ | n
      · omega
      · omega
      · simp at hy)
  exact ⟨h.1, h.2.1, h.2.2 1 (by omega)⟩

/-- Claim C9: `compact_chat_history` mutates only the list structure and the
three request-node lists of the first surviving entry: that entry's
`response_text`, `request_message`, `request_id`, `response_nodes` and
`structured_output_nodes` are unchanged, and every surviving entry after the
first is unchanged in all fields. -/
theorem claim_c9_frame_effect (ch : List AugmentChatHistory) :
    (rposition chat_history_item_has_summary ch = none →
      compact_chat_history ch = ch)
    ∧ (∀ k e, rposition chat_history_item_has_summary ch = some k → ch[k]? = some e →
        ∃ e2, (compact_chat_history ch).head? = some e2
          ∧ e2.response_text = e.response_text
          ∧ e2.request_message = e.request_message
          ∧ e2.request_id = e.request_id
          ∧ e2.response_nodes = e.response_nodes
          ∧ e2.structured_output_nodes = e.structured_output_nodes
          ∧ (compact_chat_history ch).tail = ch.drop (k + 1)) := by
  refine ⟨compact_of_no_summary ch, ?_⟩
  intro k e hk hke
  obtain ⟨hklen, hgetk⟩ := List.getElem?_eq_some.mp hke
  have hdrop : ch.drop k = e :: ch.drop (k + 1) := by
    rw [List.drop_eq_getElem_cons hklen, hgetk]
  rw [compact_of_summary ch k e (ch.drop (k + 1)) hk hdrop]
  obtain ⟨f1, f2, f3, f4, f5, -, -⟩ := compact_first_frame e
  exact ⟨compact_first e, rfl, f1, f2, f3, f4, f5, rfl⟩

/-- Witness for C9: on the two-entry history with the blank-template
checkpoint at index 1, the surviving head keeps the checkpoint's request id
and the tail is empty. -/
theorem claim_c9_witness :
    (compact_chat_history [sampleEntryPrev, sampleEntryBlank]).head?.map
        AugmentChatHistory.request_id = some "r1"
    ∧ (compact_chat_history [sampleEntryPrev, sampleEntryBlank]).tail = [] := by
  obtain ⟨e2, he2, -, -, hid, -, -, htail⟩ :=
    (claim_c9_frame_effect [sampleEntryPrev, sampleEntryBlank]).2 1 sampleEntryBlank
      (by rfl) (by rfl)
  constructor
  · rw [he2]
    simp [hid]
    rfl
  · rw [htail]
    rfl

/-- An entry holds a summary marker iff its merged node list does. -/
theorem item_has_summary_eq_merged (e : AugmentChatHistory) :
    chat_history_item_has_summary e
      = has_history_summary_node (e.request_nodes ++ e.structured_request_nodes ++ e.nodes) := by
  simp [chat_history_item_has_summary, has_history_summary_node, List.any_append,
    Bool.or_assoc]

/-- Claim C10: `compact_chat_history` is idempotent — applying it twice yields
the same list as applying it once.  After a successful rewrite the surviving
entries contain no `HistorySummary` node, so the second pass is a no-op; on
the non-renderable path the second pass re-merges the already-merged single
list (a no-op append of two empty lists) and fails to render again,
reproducing the same state. -/
theorem claim_c10_idempotent (ch : List AugmentChatHistory) :
    compact_chat_history (compact_chat_history ch) = compact_chat_history ch := by
  cases hk : rposition chat_history_item_has_summary ch with
  | none =>
    rw [compact_of_no_summary ch hk]
    exact compact_of_no_summary ch hk
  | some k =>
    obtain ⟨e, hke, hpe, hafter⟩ := rposition_some_spec _ ch k hk
    obtain ⟨hklen, hgetk⟩ := List.getElem?_eq_some.mp hke
    have hdrop : ch.drop k = e :: ch.drop (k + 1) := by
      rw [List.drop_eq_getElem_cons hklen, hgetk]
    have hcomp := compact_of_summary ch k e (ch.drop (k + 1)) hk hdrop
    rw [hcomp]
    have hrestnone : ∀ y ∈ ch.drop (k + 1), chat_history_item_has_summary y = false := by
      intro y hy
      obtain ⟨i, hi⟩ := List.getElem_of_mem hy
      have hyy : ch[k + 1 + i]? = some y := by
        rw [← List.getElem?_drop]
        exact List.getElem?_eq_some.mpr ⟨hi.1, hi.2⟩
      exact hafter (k + 1 + i) y (by omega) hyy
    cases hfind : (e.request_nodes ++ e.structured_request_nodes ++ e.nodes).find?
        NodeIn.is_history_summary_node with
    | none =>
      exfalso
      have hno : has_history_summary_node
          (e.request_nodes ++ e.structured_request_nodes ++ e.nodes) = false := by
        rw [has_history_summary_node, List.any_eq_false]
        intro x hx
        have := List.find?_eq_none.mp hfind x hx
        simpa using this
      rw [item_has_summary_eq_merged, hno] at hpe
      cases hpe
    | some snode =>
      cases hrender : render_history_summary_node_value
          (snode.history_summary_node.getD .null)
          (collectToolResults
            (e.request_nodes ++ e.structured_request_nodes ++ e.nodes)) with
      | none =>
        have hcf := compact_first_render_fails e snode hfind hrender
        have hpcf : chat_history_item_has_summary (compact_first e) = true := by
          rw [hcf, item_has_summary_of_single]
          exact has_summary_of_find hfind
        have hrpos : rposition chat_history_item_has_summary
            (compact_first e :: ch.drop (k + 1)) = some 0 := by
          apply rposition_eq_some _ _ 0 (compact_first e) (by simp) hpcf
          intro j y hj hy
          cases j with
          | zero => omega
          | succ j' =>
            exact hrestnone y (List.getElem?_mem (by simpa using hy))
        rw [compact_of_summary _ 0 (compact_first e) (ch.drop (k + 1)) hrpos rfl]
        have hmerge2 : (compact_first e).request_nodes
            ++ (compact_first e).structured_request_nodes ++ (compact_first e).nodes
            = e.request_nodes ++ e.structured_request_nodes ++ e.nodes := by
          rw [hcf]
          simp
        have hfix : compact_first (compact_first e) = compact_first e := by
          rw [compact_first_render_fails (compact_first e) snode
            (by rw [hmerge2]; exact hfind)
            (by rw [hmerge2]; exact hrender)]
          rw [hmerge2, hcf]
        rw [hfix]
      | some text =>
        have hcf := compact_first_render_succeeds e snode text hfind hrender
        have hpcf : chat_history_item_has_summary (compact_first e) = false := by
          rw [hcf, item_has_summary_of_single]
          exact no_summary_in_rewritten _ _ _
        have hrpos : rposition chat_history_item_has_summary
            (compact_first e :: ch.drop (k + 1)) = none := by
          rw [rposition_none_iff]
          intro x hx
          rcases List.mem_cons.mp hx with rfl | hmem
          · exact hpcf
          · exact hrestnone x hmem
        exact compact_of_no_summary _ hrpos


/-! ## Line-join normalization (C6) -/

theorem strIsEmpty_append_newline (a b : String) :
    strIsEmpty (a ++ "\n" ++ b) = false := by
  have h : (a ++ "\n" ++ b).data = a.data ++ '\n' :: b.data := by
    rw [str_append_data, str_append_data]
    simp
  rw [strIsEmpty, h]
  cases hx : a.data with
  | nil => rfl
  | cons c cs => rfl

theorem joinNewline_merge (a b : String) (r : List String) :
    joinNewline ((a ++ "\n" ++ b) :: r) = a ++ "\n" ++ joinNewline (b :: r) := by
  cases r with
  | nil => rfl
  | cons z r2 =>
    simp only [joinNewline_cons_cons, str_append_assoc]

theorem normalize_aux (lines : List String) : ∀ out : String,
    List.foldl normStep out lines
    = if strIsEmpty out
        then joinNewline ((lines.map dropNewlinesEnd).filter (fun s => !strIsEmpty s))
        else joinNewline (out :: (lines.map dropNewlinesEnd).filter (fun s => !strIsEmpty s)) := by
  induction lines with
  | nil =>
    intro out
    cases hout : strIsEmpty out with
    | false => simp [hout, joinNewline]
    | true =>
      simp only [List.foldl_nil, List.map_nil, List.filter_nil, hout, if_true, joinNewline]
      exact strIsEmpty_iff.mp hout
  | cons l ls ih =>
    intro out
    rw [List.foldl_cons, List.map_cons, List.filter_cons]
    cases hd : strIsEmpty (dropNewlinesEnd l) with
    | true =>
      have h1 : normStep out l = out := by simp [normStep, hd]
      rw [h1, ih out]
      simp
    | false =>
      cases hout : strIsEmpty out with
      | true =>
        have h1 : normStep out l = dropNewlinesEnd l := by simp [normStep, hd, hout]
        rw [h1, ih (dropNewlinesEnd l), hd]
        simp
      | false =>
        have h1 : normStep out l = out ++ "\n" ++ dropNewlinesEnd l := by
          simp [normStep, hd, hout]
        rw [h1, ih (out ++ "\n" ++ dropNewlinesEnd l),
          strIsEmpty_append_newline out (dropNewlinesEnd l)]
        simp only [Bool.not_false, if_true, Bool.false_eq_true, if_false]
        rw [joinNewline_merge, joinNewline_cons_cons]

/-- Counterexample to C6 as stated: a whitespace-only (but not empty)
fragment is not skipped by `normalize_joined_lines`; it is kept and leaves a
gap in the output. -/
theorem claim_c6_counterexample :
    normalize_joined_lines ["a", " ", "b"] = "a\n \nb"
    ∧ normalize_joined_lines ["a", " ", "b"] ≠ "a\nb" := by
  exact ⟨rfl, by decide⟩

/-- Claim C6 (amended): line-join normalization drops trailing newline
characters from each fragment, skips every fragment that is empty after that
(whitespace-only fragments of non-newline whitespace are kept), and joins the
kept fragments with exactly one newline between consecutive ones. -/
theorem claim_c6_amended (lines : List String) :
    normalize_joined_lines lines
      = joinNewline ((lines.map dropNewlinesEnd).filter (fun s => !strIsEmpty s)) := by
  rw [normalize_joined_lines, normalize_aux lines ""]
  rfl

/-! ## Response-text resolution (C7) -/

theorem finishedAndRaw_aux (nodes : List NodeIn) : ∀ (a : Option String) (r : String),
    List.foldl finRawStep (a, r) nodes
    = (((nodes.reverse.find? (fun n =>
          n.node_type == RESPONSE_NODE_MAIN_TEXT_FINISHED && !isBlank n.content)).map
            NodeIn.content).or a,
       r ++ strConcat ((nodes.filter (fun n =>
          n.node_type == RESPONSE_NODE_RAW_RESPONSE && !isBlank n.content)).map
            NodeIn.content)) := by
  induction nodes with
  | nil =>
    intro a r
    simp [strConcat, str_append_nil]
  | cons n ns ih =>
    intro a r
    rw [List.foldl_cons, List.reverse_cons, List.find?_append, List.filter_cons]
    cases hfin : (n.node_type == RESPONSE_NODE_MAIN_TEXT_FINISHED && !isBlank n.content) with
    | true =>
      have hraw : (n.node_type == RESPONSE_NODE_RAW_RESPONSE && !isBlank n.content) = false := by
        have hfin2 := hfin
        simp only [Bool.and_eq_true] at hfin2
        have ht : n.node_type = RESPONSE_NODE_MAIN_TEXT_FINISHED := by
          simpa using hfin2.1
        simp [ht, RESPONSE_NODE_MAIN_TEXT_FINISHED, RESPONSE_NODE_RAW_RESPONSE]
      have h1 : finRawStep (a, r) n = (some n.content, r) := by
        simp [finRawStep, hfin]
      have hfind1 : List.find? (fun n =>
          n.node_type == RESPONSE_NODE_MAIN_TEXT_FINISHED && !isBlank n.content) [n]
          = some n := by
        simp [List.find?, hfin]
      rw [h1, ih (some n.content) r, hfind1, hraw]
      simp only [Bool.false_eq_true, if_false]
      cases hrev : ns.reverse.find? (fun n =>
          n.node_type == RESPONSE_NODE_MAIN_TEXT_FINISHED && !isBlank n.content) with
      | none => simp
      | some m => simp
    | false =>
      have hfind1 : List.find? (fun n =>
          n.node_type == RESPONSE_NODE_MAIN_TEXT_FINISHED && !isBlank n.content) [n]
          = none := by
        simp [List.find?, hfin]
      rw [hfind1]
      cases hraw : (n.node_type == RESPONSE_NODE_RAW_RESPONSE && !isBlank n.content) with
      | true =>
        have h1 : finRawStep (a, r) n = (a, r ++ n.content) := by
          simp [finRawStep, hfin, hraw]
        rw [h1, ih a (r ++ n.content)]
        simp [strConcat, str_append_assoc]
      | false =>
        have h1 : finRawStep (a, r) n = (a, r) := by
          simp [finRawStep, hfin, hraw]
        rw [h1, ih a r]
        simp

/-- Spec-side resolution of the response text, following the amended claim:
the content of the last `MainTextFinished` node with non-blank content wins,
trimmed; otherwise the in-order concatenation of the non-blank `RawResponse`
contents, trimmed; only if that is still blank, the exchange's plain
`response_text` field, trimmed. -/
def resolvedResponseTextSpec (ex : HistoryEndExchange) : String :=
  match ex.response_nodes.reverse.find? (fun n =>
      n.node_type == RESPONSE_NODE_MAIN_TEXT_FINISHED && !isBlank n.content) with
  | some n => strTrim n.content
  | none =>
    let raw := strConcat ((ex.response_nodes.filter (fun n =>
        n.node_type == RESPONSE_NODE_RAW_RESPONSE && !isBlank n.content)).map
          NodeIn.content)
    if isBlank raw && !isBlank ex.response_text then strTrim ex.response_text
    else strTrim raw

/-- Counterexample to C7 as stated: whitespace-only `RawResponse` contents are
skipped by the accumulation, so the resolved text is not the trimmed
concatenation of all `RawResponse` contents — the inner blank fragment
disappears. -/
theorem claim_c7_counterexample :
    (build_exchange_render_ctx
      { request_message := "", response_text := "", request_nodes := []
        response_nodes :=
          [.mk 1 RESPONSE_NODE_RAW_RESPONSE "a" none none none none none none,
           .mk 2 RESPONSE_NODE_RAW_RESPONSE " " none none none none none none,
           .mk 3 RESPONSE_NODE_RAW_RESPONSE "b" none none none none none none] }).response_text
      = "ab"
    ∧ strTrim ("a" ++ " " ++ "b") = "a b"
    ∧ ("ab" : String) ≠ "a b" := by
  exact ⟨rfl, by decide, by decide⟩

/-- Claim C7 (amended): the resolved response text comes from exactly one of
three sources with fixed priority — the content of the last `MainTextFinished`
node with non-blank content, trimmed, if one exists; otherwise the
concatenation of the non-blank `RawResponse` contents in order, trimmed; and
only if that is still blank, the exchange's plain `response_text` field
trimmed.  A non-blank finished text always overrides both raw concatenation
and the fallback. -/
theorem claim_c7_amended (ex : HistoryEndExchange) :
    (build_exchange_render_ctx ex).response_text = resolvedResponseTextSpec ex := by
  have hbuild : (build_exchange_render_ctx ex).response_text
      = (let fr := finishedAndRaw ex.response_nodes
         let rt := strTrim (fr.1.getD fr.2)
         if strIsEmpty rt && !isBlank ex.response_text then strTrim ex.response_text
         else rt) := rfl
  rw [hbuild, finishedAndRaw, finishedAndRaw_aux ex.response_nodes none "",
    resolvedResponseTextSpec]
  cases hrev : ex.response_nodes.reverse.find? (fun n =>
      n.node_type == RESPONSE_NODE_MAIN_TEXT_FINISHED && !isBlank n.content) with
  | some m =>
    have hm := List.find?_some hrev
    have hmb : isBlank m.content = false := by
      simp only [Bool.and_eq_true] at hm
      simpa using hm.2
    show (if (strIsEmpty (strTrim m.content) && !isBlank ex.response_text) = true then
        strTrim ex.response_text
      else strTrim m.content) = strTrim m.content
    have hse : strIsEmpty (strTrim m.content) = false := hmb
    rw [hse]
    rfl
  | none =>
    rw [str_nil_append]
    rfl


/-! ## Agent-section emission (C8) -/

theorem substrP_self_append (p t : String) : SubstrP p (p ++ t) :=
  ⟨[], t.data, by rw [str_append_data]; rfl⟩

theorem not_substrP {s pat : String} (h : containsSubstr s pat = false) :
    ¬ SubstrP pat s := by
  intro hs
  have htrue := containsSubstr_iff.mpr hs
  rw [htrue] at h
  exact Bool.noConfusion h

theorem has_response_build (ex : HistoryEndExchange) :
    (build_exchange_render_ctx ex).has_response
      = (!strIsEmpty (build_exchange_render_ctx ex).thinking
        || !strIsEmpty (build_exchange_render_ctx ex).response_text
        || !(build_exchange_render_ctx ex).tool_uses.isEmpty) := rfl

theorem substrP_agent_tag_of_has_response (ctx : ExchangeRenderCtx)
    (h : ctx.has_response = true) :
    SubstrP "  <agent_response_or_tool_uses>\n" (render_exchange_full ctx) := by
  have hsec : SubstrP "  <agent_response_or_tool_uses>\n" (renderAgentSection ctx) := by
    rw [renderAgentSection]
    exact (((substrP_self_append _ _).append_right _).append_right _).append_right _
  rw [render_exchange_full, h]
  simp only [if_true]
  exact (hsec.append_left _).append_right _

/-- The hello/world exchange of the spec's Scenario B. -/
def sampleHelloWorldExchange : HistoryEndExchange :=
  { request_message := "hello", response_text := "", request_nodes := []
    response_nodes :=
      [.mk 1 RESPONSE_NODE_MAIN_TEXT_FINISHED "world" none none none none none none] }

/-- An exchange with nothing at all (no message, no nodes). -/
def sampleEmptyExchange : HistoryEndExchange :=
  { request_message := "", response_text := "", request_nodes := [], response_nodes := [] }

/-- Claim C8: the rendered block contains an agent response section iff the
normalized thinking text, response text, or tool-use list is non-empty — the
section tag is emitted when some part is non-empty, and when all three are
empty the rendered block is exactly the user part followed by the closing
tag.  In particular the Scenario B exchange (request message hello, one
MainTextFinished response node world) renders with hello inside the user
section, world inside the agent section, and no thinking tag. -/
theorem claim_c8_agent_section_iff (ex : HistoryEndExchange) :
    ((¬ strIsEmpty (build_exchange_render_ctx ex).thinking = true
        ∨ ¬ strIsEmpty (build_exchange_render_ctx ex).response_text = true
        ∨ (build_exchange_render_ctx ex).tool_uses ≠ []) →
      SubstrP "  <agent_response_or_tool_uses>\n"
        (render_exchange_full (build_exchange_render_ctx ex)))
    ∧ ((build_exchange_render_ctx ex).thinking = "" →
        (build_exchange_render_ctx ex).response_text = "" →
        (build_exchange_render_ctx ex).tool_uses = [] →
        render_exchange_full (build_exchange_render_ctx ex)
          = "<exchange>\n  <user_request_or_tool_results>\n"
            ++ (if isBlank (build_exchange_render_ctx ex).user_message then ""
                else dropNewlinesEnd (build_exchange_render_ctx ex).user_message ++ "\n")
            ++ strConcat
                ((build_exchange_render_ctx ex).tool_results.map renderToolResultBlock)
            ++ "  </user_request_or_tool_results>\n"
            ++ "</exchange>")
    ∧ render_exchange_full (build_exchange_render_ctx sampleHelloWorldExchange)
        = "<exchange>\n  <user_request_or_tool_results>\nhello\n  </user_request_or_tool_results>\n  <agent_response_or_tool_uses>\nworld\n  </agent_response_or_tool_uses>\n</exchange>"
    ∧ SubstrP "hello"
        (render_exchange_full (build_exchange_render_ctx sampleHelloWorldExchange))
    ∧ SubstrP "world"
        (render_exchange_full (build_exchange_render_ctx sampleHelloWorldExchange))
    ∧ ¬ SubstrP "<thinking>"
        (render_exchange_full (build_exchange_render_ctx sampleHelloWorldExchange)) := by
  refine ⟨?_, ?_, by rfl, containsSubstr_iff.mp (by decide),
    containsSubstr_iff.mp (by decide), not_substrP (by decide)⟩
  · intro hdis
    apply substrP_agent_tag_of_has_response
    rw [has_response_build]
    rcases hdis with h | h | h
    · have hb : strIsEmpty (build_exchange_render_ctx ex).thinking = false :=
        Bool.eq_false_iff.mpr h
      rw [hb]
      rfl
    · have hb : strIsEmpty (build_exchange_render_ctx ex).response_text = false :=
        Bool.eq_false_iff.mpr h
      rw [hb]
      simp
    · have hb : (build_exchange_render_ctx ex).tool_uses.isEmpty = false := by
        cases hbe : (build_exchange_render_ctx ex).tool_uses.isEmpty with
        | false => rfl
        | true => exact absurd (List.isEmpty_iff.mp hbe) h
      rw [hb]
      simp
  · intro h1 h2 h3
    have hhr : (build_exchange_render_ctx ex).has_response = false := by
      rw [has_response_build, h1, h2, h3]
      rfl
    rw [render_exchange_full, hhr]
    simp only [Bool.false_eq_true, if_false]
    rw [str_append_nil]

/-- Witness for C8: the Scenario B exchange has a non-empty response text, so
its render carries the agent section tag; the fully empty exchange renders to
the bare user-section skeleton. -/
theorem claim_c8_witness :
    SubstrP "  <agent_response_or_tool_uses>\n"
      (render_exchange_full (build_exchange_render_ctx sampleHelloWorldExchange))
    ∧ render_exchange_full (build_exchange_render_ctx sampleEmptyExchange)
        = "<exchange>\n  <user_request_or_tool_results>\n  </user_request_or_tool_results>\n</exchange>" := by
  constructor
  · exact (claim_c8_agent_section_iff sampleHelloWorldExchange).1
      (Or.inr (Or.inl (by decide)))
  · have h := (claim_c8_agent_section_iff sampleEmptyExchange).2.1 (by rfl) (by rfl) (by rfl)
    rw [h]
    rfl


/-! ## Template substitution order (C5) -/

/-- A payload whose only content is its template `"{summary}"` and its
summary text; everything else is empty. -/
def tokenPayloadBase : HistorySummaryNode :=
  { summary_text := ""
    summarization_request_id := ""
    history_beginning_dropped_num_exchanges := 0
    history_middle_abridged_text := ""
    history_end := []
    message_template := "{summary}" }

/-- Summary text containing its own token: not re-expanded (single pass). -/
def tokenPayloadSelf : HistorySummaryNode :=
  { tokenPayloadBase with summary_text := "{summary}" }

/-- Summary text containing a strictly later token: re-expanded by the later
pass. -/
def tokenPayloadLater : HistorySummaryNode :=
  { tokenPayloadBase with summary_text := "{end_part_full}" }

/-- A payload whose template is the last-substituted token
`"{abridged_history}"` with an arbitrary abridged text. -/
def tokenPayloadAlias (v : String) : HistorySummaryNode :=
  { tokenPayloadBase with
      history_middle_abridged_text := v
      message_template := "{abridged_history}" }

/-- Counterexample to C5 as stated: with template `"{summary}"`, empty stored
tail and summary text `"{end_part_full}"` — a replacement value containing a
recognized token string — the token does not survive verbatim: the later
end-part pass expands it to the (empty) tail rendering, so the output is
`""`. -/
theorem claim_c5_counterexample :
    render_history_summary_node_value (.decoded tokenPayloadLater) [] = some ""
    ∧ containsSubstr "" "{end_part_full}" = false := by
  exact ⟨by rfl, by rfl⟩

/-- Claim C5 (amended): substitution is a literal find-and-replace applied
once per token, sequentially in the fixed order summary, summarization
request id, dropped count, middle part, end part, legacy alias.  A
replacement value is never re-scanned for its own token or for earlier
tokens — the value of the last token `{abridged_history}` survives verbatim
whatever it contains, and a `{summary}` string inside the summary text
survives — but a replacement value containing a strictly later token is
expanded by that later pass. -/
theorem claim_c5_amended :
    (∀ v : String,
      render_history_summary_node_value (.decoded (tokenPayloadAlias v)) [] = some v)
    ∧ render_history_summary_node_value (.decoded tokenPayloadSelf) [] = some "{summary}"
    ∧ render_history_summary_node_value (.decoded tokenPayloadLater) [] = some "" := by
  refine ⟨?_, by rfl, by rfl⟩
  intro v
  show some (⟨v.data ++ []⟩ : String) = some v
  rw [List.append_nil]


/-! ## Tail tool results folded into the end-part rendering (C4) -/

theorem toolResultCtx_mem (ex : HistoryEndExchange) (n : NodeIn) (tr : ToolResultNode)
    (hmem : n ∈ ex.request_nodes) (htyp : n.node_type = REQUEST_NODE_TOOL_RESULT)
    (hpay : n.tool_result_node = some tr) (hid : isBlank tr.tool_use_id = false) :
    (⟨tr.tool_use_id, tr.content, tr.is_error⟩ : ToolResultCtx)
      ∈ (build_exchange_render_ctx ex).tool_results := by
  have hctx : (build_exchange_render_ctx ex).tool_results
      = (ex.request_nodes.filter (fun n => n.node_type == REQUEST_NODE_TOOL_RESULT)).filterMap
          (fun n =>
            match n.tool_result_node with
            | none => none
            | some tr =>
              if isBlank tr.tool_use_id then none
              else some ⟨tr.tool_use_id, tr.content, tr.is_error⟩) := rfl
  rw [hctx]
  apply List.mem_filterMap.mpr
  refine ⟨n, List.mem_filter.mpr ⟨hmem, by simp [htyp]⟩, ?_⟩
  rw [hpay]
  simp [hid]

theorem substrP_block_in_render (ctx : ExchangeRenderCtx) (t : ToolResultCtx)
    (h : t ∈ ctx.tool_results) :
    SubstrP (renderToolResultBlock t) (render_exchange_full ctx) := by
  have h1 : SubstrP (renderToolResultBlock t)
      (strConcat (ctx.tool_results.map renderToolResultBlock)) :=
    substrP_strConcat (List.mem_map_of_mem _ h)
  rw [render_exchange_full]
  exact (((h1.append_left _).append_right _).append_right _).append_right _

/-- Claim C4: for every compaction where rendering succeeds and the template
contains `{end_part_full}`, every `ToolResult` node of the merged list that
carries a decoded payload with a non-blank `tool_use_id` appears in the
rendered end-part text as a `<tool_result>` block bearing its original
(trimmed) id and its content, via one synthetic additional exchange with
empty message/response fields whose request-node list is the collected tool
results, appended after the payload's stored tail exchanges. -/
theorem claim_c4_tail_tool_results_folded
    (ch : List AugmentChatHistory) (k : Nat) (first : AugmentChatHistory)
    (rest : List AugmentChatHistory) (snode : NodeIn) (p : HistorySummaryNode)
    (n : NodeIn) (tr : ToolResultNode)
    (hk : rposition chat_history_item_has_summary ch = some k)
    (hdrop : ch.drop k = first :: rest)
    (hfind : (first.request_nodes ++ first.structured_request_nodes ++ first.nodes).find?
      NodeIn.is_history_summary_node = some snode)
    (hdec : decodeHistorySummary (snode.history_summary_node.getD .null) = some p)
    (htmpl : isBlank p.message_template = false)
    (htok : containsSubstr p.message_template "{end_part_full}" = true)
    (hmem : n ∈ first.request_nodes ++ first.structured_request_nodes ++ first.nodes)
    (htyp : n.node_type = REQUEST_NODE_TOOL_RESULT)
    (hpay : n.tool_result_node = some tr)
    (hid : isBlank tr.tool_use_id = false) :
    historyEndWithExtra p
        (collectToolResults
          (first.request_nodes ++ first.structured_request_nodes ++ first.nodes))
      = p.history_end ++
          [{ request_message := "", response_text := ""
             request_nodes :=
               collectToolResults
                 (first.request_nodes ++ first.structured_request_nodes ++ first.nodes)
             response_nodes := [] }]
    ∧ SubstrP (renderToolResultBlock ⟨tr.tool_use_id, tr.content, tr.is_error⟩)
        (endPartFullOf p
          (collectToolResults
            (first.request_nodes ++ first.structured_request_nodes ++ first.nodes))) := by
  have hcoll : n ∈ collectToolResults
      (first.request_nodes ++ first.structured_request_nodes ++ first.nodes) := by
    apply List.mem_filter.mpr
    refine ⟨hmem, ?_⟩
    rw [htyp, hpay]
    rfl
  have hne : (collectToolResults
      (first.request_nodes ++ first.structured_request_nodes ++ first.nodes)).isEmpty
      = false := by
    cases hc : (collectToolResults
        (first.request_nodes ++ first.structured_request_nodes ++ first.nodes)).isEmpty with
    | false => rfl
    | true =>
      rw [List.isEmpty_iff.mp hc] at hcoll
      cases hcoll
  have hext : historyEndWithExtra p
      (collectToolResults
        (first.request_nodes ++ first.structured_request_nodes ++ first.nodes))
      = p.history_end ++
          [{ request_message := "", response_text := ""
             request_nodes :=
               collectToolResults
                 (first.request_nodes ++ first.structured_request_nodes ++ first.nodes)
             response_nodes := [] }] := by
    rw [historyEndWithExtra, hne]
    rfl
  refine ⟨hext, ?_⟩
  have hctx : (⟨tr.tool_use_id, tr.content, tr.is_error⟩ : ToolResultCtx)
      ∈ (build_exchange_render_ctx
          { request_message := "", response_text := ""
            request_nodes :=
              collectToolResults
                (first.request_nodes ++ first.structured_request_nodes ++ first.nodes)
            response_nodes := [] }).tool_results :=
    toolResultCtx_mem _ n tr hcoll htyp hpay hid
  have hblock := substrP_block_in_render _ _ hctx
  have hjoin : SubstrP
      (render_exchange_full (build_exchange_render_ctx
        { request_message := "", response_text := ""
          request_nodes :=
            collectToolResults
              (first.request_nodes ++ first.structured_request_nodes ++ first.nodes)
          response_nodes := [] }))
      (endPartFullOf p
        (collectToolResults
          (first.request_nodes ++ first.structured_request_nodes ++ first.nodes))) := by
    rw [endPartFullOf, hext]
    apply substrP_joinNewline
    apply List.mem_map_of_mem
    exact List.mem_append_right _ (List.mem_singleton.mpr rfl)
  exact hblock.trans hjoin

/-- Witness for C4: in the renderable sample checkpoint, the collected tool
result `tool-1`/`RESULT` is appended as the synthetic final exchange and its
block occurs verbatim in the end-part rendering. -/
theorem claim_c4_witness :
    historyEndWithExtra samplePayloadOk
        (collectToolResults
          (sampleEntryOk.request_nodes ++ sampleEntryOk.structured_request_nodes
            ++ sampleEntryOk.nodes))
      = samplePayloadOk.history_end ++
          [{ request_message := "", response_text := ""
             request_nodes :=
               collectToolResults
                 (sampleEntryOk.request_nodes ++ sampleEntryOk.structured_request_nodes
                   ++ sampleEntryOk.nodes)
             response_nodes := [] }]
    ∧ SubstrP
        (renderToolResultBlock ⟨"tool-1", "RESULT", false⟩)
        (endPartFullOf samplePayloadOk
          (collectToolResults
            (sampleEntryOk.request_nodes ++ sampleEntryOk.structured_request_nodes
              ++ sampleEntryOk.nodes))) :=
  claim_c4_tail_tool_results_folded
    [sampleEntryPrev, sampleEntryOk] 1 sampleEntryOk [] sampleHsNodeOk samplePayloadOk
    sampleTRNode sampleToolResultNode
    (by rfl) (by rfl) (by rfl) (by rfl) (by rfl) (by rfl)
    (by simp [sampleEntryOk]) (by rfl) (by rfl) (by rfl)

end ABP
